import Mathlib

/-!
Shallow embedding of the serial-to-websocket bridge
(`src/console/python websocket_bridge.py`).

The bridge keeps three pieces of global mutable state:
  * `connected_clients` — the set of websocket clients (modelled where needed
    as a list of abstract client identifiers);
  * `players` — a dict mapping a serial-port address to
    `\x7b 'player_num': int, 'serial_conn': Serial \x7d` (modelled as an
    association list, which also records Python's dict insertion order);
  * `assigned_player_nums` — the set of player numbers currently in use.

Serial handles are modelled by the two observations the bridge makes of them:
whether `is_open` holds, and whether a `write` call raises (caught by the
per-iteration `try/except` blocks).  A "write" in this development is an
invocation of `Serial.write` together with the exact byte string passed to it.

Broadcast payloads produced by `json.dumps` are modelled as structures holding
the fields of the serialized object rather than as raw JSON text.
-/

/-- Configuration constant `MAX_PLAYERS = 4`. -/
def MAX_PLAYERS : Nat := 4

/-- Model of a `serial.Serial` handle: the bridge observes `is_open` and
whether a `write` raises an exception. -/
structure SerialConn where
  is_open : Bool
  write_ok : Bool
deriving DecidableEq

/-- One value of the `players` dict:
`\x7b 'player_num': int, 'serial_conn': Serial \x7d`. -/
structure PlayerInfo where
  player_num : Nat
  serial_conn : SerialConn
deriving DecidableEq

/-- The registry state: the `players` dict (association list keyed by port
address, in insertion order) and the `assigned_player_nums` set. -/
structure BridgeState where
  players : List (String × PlayerInfo)
  assigned_player_nums : Finset Nat
deriving DecidableEq

/-- The `json.dumps(\x7b"status": "disconnected", "player": ..., "port": ...\x7d)`
payload broadcast by the relay's cleanup. -/
structure DiscEnvelope where
  player : Nat
  port : String
deriving DecidableEq

/-- The `json.dumps(\x7b"player": ..., "data": ...\x7d)` payload broadcast for a
line of device output. -/
structure DataEnvelope where
  player : Nat
  data : List Char
deriving DecidableEq

/-- Python dict membership test `port in players` / value lookup
`players.get(port)` on the association-list model. -/
def lookupPort (port : String) : List (String × PlayerInfo) → Option PlayerInfo
  | [] => none
  | (p, info) :: rest => if p = port then some info else lookupPort port rest

/-- The loop body of `get_available_player_num`:
`for i in ...: if i not in assigned_player_nums: return i` and the final
`return None`. -/
def availLoop (assigned : Finset Nat) : List Nat → Option Nat
  | [] => none
  | i :: rest => if i ∉ assigned then some i else availLoop assigned rest

/-- `get_available_player_num()`: scans `range(1, MAX_PLAYERS + 1)` for the
first number not in `assigned_player_nums`. -/
def get_available_player_num (assigned : Finset Nat) : Option Nat :=
  availLoop assigned ((List.range MAX_PLAYERS).map (fun i => i + 1))

/-- The connect branch of one `com_port_scanner` cycle for a single qualifying
port whose `serial.Serial(...)` open succeeded with handle `conn`:
`if port not in players: player_num = get_available_player_num();`
`if player_num: players[port] = ...; assigned_player_nums.add(player_num)`.
Python tests the truthiness of `player_num`, so `None` and `0` are both
rejected; the connected-status broadcast does not change registry state and is
elided here. -/
def scanConnect (s : BridgeState) (port : String) (conn : SerialConn) : BridgeState :=
  if (lookupPort port s.players).isSome then s
  else
    match get_available_player_num s.assigned_player_nums with
    | none => s
    | some player_num =>
      if player_num = 0 then s
      else
        { players := s.players ++ [(port, { player_num := player_num, serial_conn := conn })],
          assigned_player_nums := insert player_num s.assigned_player_nums }

/-- The cleanup block at the end of `read_from_serial`:
`if port_address in players: assigned_player_nums.remove(...); del players[...];`
`await broadcast(json.dumps(\x7b"status": "disconnected", ...\x7d))`.
Returns the new state together with the disconnected envelope, if one was
broadcast.  (`del` of a dict key is modelled by filtering the key out, which
agrees with `del` whenever the keys are distinct.) -/
def relayCleanup (s : BridgeState) (port_address : String) : BridgeState × Option DiscEnvelope :=
  match lookupPort port_address s.players with
  | none => (s, none)
  | some info =>
    ({ players := s.players.filter (fun pr => pr.1 ≠ port_address),
       assigned_player_nums := s.assigned_player_nums.erase info.player_num },
     some { player := info.player_num, port := port_address })

/-- A registry-mutating event: a qualifying device appears on a port and is
opened successfully (`connect`), or a bound device's relay runs its disconnect
cleanup (`disconnect`).  Failed opens and non-qualifying ports leave the
registry unchanged and need no event. -/
inductive Event where
  | connect (port : String) (conn : SerialConn)
  | disconnect (port : String)

/-- Apply one event to the registry state. -/
def applyEvent (s : BridgeState) : Event → BridgeState
  | Event.connect port conn => scanConnect s port conn
  | Event.disconnect port => (relayCleanup s port).1

/-- The initial state: `players = \x7b\x7d`, `assigned_player_nums = set()`. -/
def initState : BridgeState :=
  { players := [], assigned_player_nums := ∅ }

/-- Run a sequence of connect/disconnect events from the initial state. -/
def runEvents (events : List Event) : BridgeState :=
  events.foldl applyEvent initState

/-- The result of `json.loads` on an inbound websocket message, restricted to
what the router inspects: whether the text parsed at all, and the value of the
`player_id` field when present. -/
structure ParsedObj where
  player_id : Option Int
deriving DecidableEq

/-- Outcome of parsing an inbound message: `invalid` models a
`json.JSONDecodeError`. -/
inductive Parsed where
  | invalid
  | obj (o : ParsedObj)
deriving DecidableEq

/-- The targeted loop of `handle_websocket_message`: iterate `players.items()`;
on the first entry whose `player_num` equals the target, if its handle
`is_open`, call `ser.write(message + newline)`; when that write returns
normally, `break`; when it raises, the exception is caught and the loop
continues.  The result lists every `(port, text)` write invocation made. -/
def sendTargeted (message : String) (target : Int) :
    List (String × PlayerInfo) → List (String × String)
  | [] => []
  | (port, info) :: rest =>
    if (info.player_num : Int) = target then
      if info.serial_conn.is_open then
        (port, message ++ "\n") ::
          (if info.serial_conn.write_ok then [] else sendTargeted message target rest)
      else sendTargeted message target rest
    else sendTargeted message target rest

/-- The broadcast loop of `handle_websocket_message`: for every entry of
`players.items()` whose handle `is_open`, call `ser.write(message + newline)`;
a raised write exception is caught inside the loop body and the iteration
continues regardless.  The result lists every write invocation made. -/
def sendBroadcast (message : String) : List (String × PlayerInfo) → List (String × String)
  | [] => []
  | (port, info) :: rest =>
    if info.serial_conn.is_open then (port, message ++ "\n") :: sendBroadcast message rest
    else sendBroadcast message rest

/-- `handle_websocket_message(message)`: parse the raw text as JSON; on
failure drop it; if the object has a `player_id` field, run the targeted loop;
otherwise run the broadcast loop.  Returns the list of serial write
invocations `(port, text written)`. -/
def handle_websocket_message (message : String) (parsed : Parsed)
    (players : List (String × PlayerInfo)) : List (String × String) :=
  match parsed with
  | Parsed.invalid => []
  | Parsed.obj o =>
    match o.player_id with
    | some target => sendTargeted message target players
    | none => sendBroadcast message players

/-- The ASCII whitespace characters removed by Python's `str.strip()` with no
argument (the further Unicode whitespace Python also strips is not exercised
by this development). -/
def isPyWs (c : Char) : Bool :=
  c = ' ' || c = '\t' || c = '\n' || c = '\r' || c = '\x0b' || c = '\x0c'

/-- Python `str.strip()`: remove leading and trailing whitespace. -/
def pyStripList (l : List Char) : List Char :=
  ((l.dropWhile isPyWs).reverse.dropWhile isPyWs).reverse

/-- One line-handling step of `read_from_serial`:
`line = ser.readline().decode('utf-8').strip(); if line: await broadcast(`
`json.dumps(\x7b"player": player_num, "data": line\x7d))`.  The input is the
decoded text of the line; the result is the envelope broadcast, if any. -/
def processLine (player_num : Nat) (rawLine : List Char) : Option DataEnvelope :=
  let line := pyStripList rawLine
  if line ≠ [] then some { player := player_num, data := line } else none

/-- Trimming trailing whitespace only — this follows the specification's words
("trim trailing whitespace"), for comparison with `pyStripList`, which is what
the code does. -/
def trailingStripOnly (l : List Char) : List Char :=
  (l.reverse.dropWhile isPyWs).reverse

/-- `asyncio.wait(tasks)`: raises `ValueError` when handed an empty collection,
otherwise runs the send tasks.  A task is modelled as the pair
(client, payload text). -/
def asyncio_wait (tasks : List (Nat × String)) :
    Except String (List (Nat × String)) :=
  if tasks.isEmpty then Except.error "ValueError: Set of coroutines is empty."
  else Except.ok tasks

/-- `broadcast(message)`: `if connected_clients: await asyncio.wait([...])` —
the guard makes the call a no-op on an empty client set.  Returns the send
tasks executed, or the error `asyncio.wait` would raise. -/
def wsBroadcast (connected_clients : List Nat) (message : String) :
    Except String (List (Nat × String)) :=
  if connected_clients.isEmpty then Except.ok []
  else asyncio_wait (connected_clients.map (fun c => (c, message)))

/-- `startsWithChars needle hay` holds when `needle` is an initial segment of
`hay` (character-by-character comparison). -/
def startsWithChars : List Char → List Char → Bool
  | [], _ => true
  | _ :: _, [] => false
  | a :: as, b :: bs => a = b && startsWithChars as bs

/-- Python's substring test `needle in hay` for strings, on character lists. -/
def containsSubstring (needle : List Char) : List Char → Bool
  | [] => needle.isEmpty
  | c :: rest => startsWithChars needle (c :: rest) || containsSubstring needle rest

/-- One entry of `serial.tools.list_ports.comports()`: the device path and the
(possibly missing) description string. -/
structure PortEntry where
  device : String
  description : Option String
deriving DecidableEq

/-- The scanner's qualifying filter: `"Serial" in (p.description or "")` —
a missing description is replaced by the empty string before the
case-sensitive substring test. -/
def qualifiesAsPlayer (p : PortEntry) : Bool :=
  containsSubstring "Serial".data ((p.description.getD "").data)

/-- The scanner's qualifying set
`\x7bp.device for p in available_ports if "Serial" in (p.description or "")\x7d`
(as a list, in enumeration order). -/
def esp_ports (available_ports : List PortEntry) : List String :=
  (available_ports.filter qualifiesAsPlayer).map PortEntry.device

/-- The inductive invariant of the registry: port keys are distinct (they form
a dict), assigned player numbers are distinct, every assigned number lies in
`[1, MAX_PLAYERS]`, and `assigned_player_nums` is exactly the set of player
numbers of current bindings. -/
def GoodState (s : BridgeState) : Prop :=
  (s.players.map Prod.fst).Nodup ∧
  (s.players.map (fun pr => pr.2.player_num)).Nodup ∧
  (∀ pr ∈ s.players, 1 ≤ pr.2.player_num ∧ pr.2.player_num ≤ MAX_PLAYERS) ∧
  (∀ n : Nat, n ∈ s.assigned_player_nums ↔ ∃ pr ∈ s.players, pr.2.player_num = n)

/-! ### Helper lemmas: the slot allocator -/

lemma max_players_eq : MAX_PLAYERS = 4 := rfl

lemma gap_eq_list (assigned : Finset Nat) :
    get_available_player_num assigned = availLoop assigned [1, 2, 3, 4] := by
  have h : (List.range MAX_PLAYERS).map (fun i => i + 1) = [1, 2, 3, 4] := by decide
  rw [get_available_player_num, h]

lemma availLoop_none_iff (assigned : Finset Nat) (l : List Nat) :
    availLoop assigned l = none ↔ ∀ i ∈ l, i ∈ assigned := by
  induction l with
  | nil => simp [availLoop]
  | cons i rest ih =>
    by_cases hi : i ∈ assigned
    · simpa [availLoop, hi] using ih
    · simp [availLoop, hi]

lemma availLoop_some_spec (assigned : Finset Nat) (l : List Nat)
    (hsort : l.Pairwise (· ≤ ·)) (n : Nat) (h : availLoop assigned l = some n) :
    n ∈ l ∧ n ∉ assigned ∧ ∀ m ∈ l, m ∉ assigned → n ≤ m := by
  induction l with
  | nil => simp [availLoop] at h
  | cons i rest ih =>
    obtain ⟨hle, hrest⟩ := List.pairwise_cons.mp hsort
    by_cases hi : i ∈ assigned
    · rw [availLoop, if_neg (fun hc => hc hi)] at h
      obtain ⟨hn1, hn2, hn3⟩ := ih hrest h
      refine ⟨List.mem_cons_of_mem _ hn1, hn2, ?_⟩
      intro m hm hmna
      rcases List.mem_cons.mp hm with rfl | hm'
      · exact absurd hi hmna
      · exact hn3 m hm' hmna
    · rw [availLoop, if_pos hi] at h
      cases h
      refine ⟨List.mem_cons_self _ _, hi, ?_⟩
      intro m hm _
      rcases List.mem_cons.mp hm with rfl | hm'
      · exact le_refl m
      · exact hle m hm'

lemma gap_some_spec (assigned : Finset Nat) (n : Nat)
    (h : get_available_player_num assigned = some n) :
    1 ≤ n ∧ n ≤ MAX_PLAYERS ∧ n ∉ assigned ∧
      ∀ m, 1 ≤ m → m ≤ MAX_PLAYERS → m ∉ assigned → n ≤ m := by
  rw [gap_eq_list] at h
  obtain ⟨hmem, hna, hmin⟩ := availLoop_some_spec assigned [1, 2, 3, 4] (by decide) n h
  have hb : 1 ≤ n ∧ n ≤ MAX_PLAYERS := by
    rw [max_players_eq]
    simp only [List.mem_cons, List.not_mem_nil, or_false] at hmem
    omega
  refine ⟨hb.1, hb.2, hna, ?_⟩
  intro m h1 h4 hm
  refine hmin m ?_ hm
  rw [max_players_eq] at h4
  simp only [List.mem_cons, List.not_mem_nil, or_false]
  omega

lemma gap_none_iff (assigned : Finset Nat) :
    get_available_player_num assigned = none ↔
      ∀ i, 1 ≤ i → i ≤ MAX_PLAYERS → i ∈ assigned := by
  rw [gap_eq_list, availLoop_none_iff]
  constructor
  · intro h i h1 h4
    refine h i ?_
    rw [max_players_eq] at h4
    simp only [List.mem_cons, List.not_mem_nil, or_false]
    omega
  · intro h i hi
    simp only [List.mem_cons, List.not_mem_nil, or_false] at hi
    refine h i (by omega) ?_
    rw [max_players_eq]
    omega

lemma gap_one (assigned : Finset Nat) (h : 1 ∉ assigned) :
    get_available_player_num assigned = some 1 := by
  rw [gap_eq_list, availLoop, if_pos h]

/-! ### Helper lemmas: dict lookup -/

lemma lookupPort_none_iff (port : String) (l : List (String × PlayerInfo)) :
    lookupPort port l = none ↔ ∀ pr ∈ l, pr.1 ≠ port := by
  induction l with
  | nil => simp [lookupPort]
  | cons hd rest ih =>
    obtain ⟨p, info⟩ := hd
    by_cases hp : p = port
    · subst hp
      simp [lookupPort]
    · simp [lookupPort, hp, ih]

lemma lookupPort_some_mem {port : String} {l : List (String × PlayerInfo)}
    {info : PlayerInfo} (h : lookupPort port l = some info) : (port, info) ∈ l := by
  induction l with
  | nil => simp [lookupPort] at h
  | cons hd rest ih =>
    obtain ⟨p, i⟩ := hd
    by_cases hp : p = port
    · subst hp
      rw [lookupPort, if_pos rfl] at h
      cases h
      exact List.mem_cons_self _ _
    · rw [lookupPort, if_neg hp] at h
      exact List.mem_cons_of_mem _ (ih h)

lemma lookupPort_filter_self (port : String) (l : List (String × PlayerInfo)) :
    lookupPort port (l.filter (fun pr => pr.1 ≠ port)) = none := by
  rw [lookupPort_none_iff]
  intro pr hpr
  simpa using List.of_mem_filter hpr

lemma lookupPort_append (port : String) (l1 l2 : List (String × PlayerInfo))
    (h : lookupPort port l1 = none) :
    lookupPort port (l1 ++ l2) = lookupPort port l2 := by
  induction l1 with
  | nil => simp
  | cons hd rest ih =>
    obtain ⟨p, i⟩ := hd
    by_cases hp : p = port
    · subst hp
      rw [lookupPort, if_pos rfl] at h
      cases h
    · rw [lookupPort, if_neg hp] at h
      rw [List.cons_append, lookupPort, if_neg hp]
      exact ih h

lemma key_unique {l : List (String × PlayerInfo)} (hnd : (l.map Prod.fst).Nodup)
    {a b : String × PlayerInfo} (ha : a ∈ l) (hb : b ∈ l) (hk : a.1 = b.1) : a = b :=
  List.inj_on_of_nodup_map hnd ha hb hk

/-! ### Helper lemmas: the registry invariant -/

lemma good_init : GoodState initState := by
  refine ⟨?_, ?_, ?_, ?_⟩ <;> simp [initState, GoodState]

lemma good_scanConnect {s : BridgeState} (hs : GoodState s)
    (port : String) (conn : SerialConn) : GoodState (scanConnect s port conn) := by
  obtain ⟨hkeys, hnums, hbnd, hiff⟩ := hs
  by_cases hlk : (lookupPort port s.players).isSome = true
  · have e1 : scanConnect s port conn = s := by
      unfold scanConnect
      rw [if_pos hlk]
    rw [e1]
    exact ⟨hkeys, hnums, hbnd, hiff⟩
  · have hnone : lookupPort port s.players = none := Option.not_isSome_iff_eq_none.mp hlk
    have hfresh : ∀ pr ∈ s.players, pr.1 ≠ port := (lookupPort_none_iff port s.players).mp hnone
    rcases hgap : get_available_player_num s.assigned_player_nums with _ | n
    · have e1 : scanConnect s port conn = s := by
        unfold scanConnect
        rw [if_neg hlk, hgap]
      rw [e1]
      exact ⟨hkeys, hnums, hbnd, hiff⟩
    · obtain ⟨h1, h4, hna, _⟩ := gap_some_spec _ _ hgap
      have hn0 : ¬ n = 0 := by omega
      have e1 : scanConnect s port conn =
          { players := s.players ++ [(port, { player_num := n, serial_conn := conn })],
            assigned_player_nums := insert n s.assigned_player_nums } := by
        unfold scanConnect
        rw [if_neg hlk, hgap]
        exact if_neg hn0
      rw [e1]
      have hport : port ∉ s.players.map Prod.fst := by
        simp only [List.mem_map]
        rintro ⟨pr, hpr, hEq⟩
        exact hfresh pr hpr hEq
      have hnumNew : n ∉ s.players.map (fun pr => pr.2.player_num) := by
        simp only [List.mem_map]
        rintro ⟨pr, hpr, hEq⟩
        exact hna ((hiff n).mpr ⟨pr, hpr, hEq⟩)
      refine ⟨?_, ?_, ?_, ?_⟩
      · rw [List.map_append]
        simp [List.nodup_append, hkeys, hport]
      · rw [List.map_append]
        simp [List.nodup_append, hnums, hnumNew]
      · intro pr hpr
        rcases List.mem_append.mp hpr with hmem | hmem
        · exact hbnd pr hmem
        · simp only [List.mem_singleton] at hmem
          subst hmem
          exact ⟨h1, h4⟩
      · intro m
        rw [Finset.mem_insert, hiff m]
        simp only [List.mem_append, List.mem_singleton]
        constructor
        · rintro (rfl | ⟨pr, hpr, hEq⟩)
          · exact ⟨(port, { player_num := m, serial_conn := conn }), Or.inr rfl, rfl⟩
          · exact ⟨pr, Or.inl hpr, hEq⟩
        · rintro ⟨pr, hpr | rfl, hEq⟩
          · exact Or.inr ⟨pr, hpr, hEq⟩
          · exact Or.inl hEq.symm

lemma good_relayCleanup {s : BridgeState} (hs : GoodState s) (port : String) :
    GoodState (relayCleanup s port).1 := by
  obtain ⟨hkeys, hnums, hbnd, hiff⟩ := hs
  rcases hlk : lookupPort port s.players with _ | info
  · have e1 : relayCleanup s port = (s, none) := by
      unfold relayCleanup
      rw [hlk]
    rw [e1]
    exact ⟨hkeys, hnums, hbnd, hiff⟩
  · have e1 : (relayCleanup s port).1 =
        { players := s.players.filter (fun pr => pr.1 ≠ port),
          assigned_player_nums := s.assigned_player_nums.erase info.player_num } := by
      unfold relayCleanup
      rw [hlk]
    rw [e1]
    have hmemPort : (port, info) ∈ s.players := lookupPort_some_mem hlk
    refine ⟨?_, ?_, ?_, ?_⟩
    · exact List.Nodup.sublist (List.Sublist.map Prod.fst (List.filter_sublist _)) hkeys
    · exact List.Nodup.sublist
        (List.Sublist.map (fun pr : String × PlayerInfo => pr.2.player_num)
          (List.filter_sublist _)) hnums
    · intro pr hpr
      exact hbnd pr (List.mem_of_mem_filter hpr)
    · intro m
      rw [Finset.mem_erase, hiff m]
      constructor
      · rintro ⟨hne, pr, hpr, hEq⟩
        refine ⟨pr, List.mem_filter.mpr ⟨hpr, ?_⟩, hEq⟩
        have hk : pr.1 ≠ port := by
          intro hkey
          have hpr' : pr = (port, info) := key_unique hkeys hpr hmemPort hkey
          rw [hpr'] at hEq
          exact hne hEq.symm
        simpa using hk
      · rintro ⟨pr, hpr, hEq⟩
        obtain ⟨hpr', hkey⟩ := List.mem_filter.mp hpr
        have hk : pr.1 ≠ port := by simpa using hkey
        refine ⟨?_, pr, hpr', hEq⟩
        intro hEq2
        have : pr = (port, info) :=
          List.inj_on_of_nodup_map hnums hpr' hmemPort (by rw [hEq, hEq2])
        exact hk (by rw [this])

lemma good_applyEvent {s : BridgeState} (hs : GoodState s) (e : Event) :
    GoodState (applyEvent s e) := by
  cases e with
  | connect port conn => exact good_scanConnect hs port conn
  | disconnect port => exact good_relayCleanup hs port

lemma good_foldl (events : List Event) :
    ∀ s : BridgeState, GoodState s → GoodState (events.foldl applyEvent s) := by
  induction events with
  | nil => exact fun s hs => hs
  | cons e rest ih => exact fun s hs => ih _ (good_applyEvent hs e)

lemma good_runEvents (events : List Event) : GoodState (runEvents events) :=
  good_foldl events initState good_init

lemma length_le_of_good {s : BridgeState} (hs : GoodState s) :
    s.players.length ≤ MAX_PLAYERS := by
  obtain ⟨_, hnums, hbnd, _⟩ := hs
  have h1 : (s.players.map (fun pr => pr.2.player_num)).toFinset.card
      = s.players.length := by
    rw [List.toFinset_card_of_nodup hnums, List.length_map]
  have h2 : (s.players.map (fun pr => pr.2.player_num)).toFinset
      ⊆ Finset.Icc 1 MAX_PLAYERS := by
    intro x hx
    rw [List.mem_toFinset, List.mem_map] at hx
    obtain ⟨pr, hpr, hEq⟩ := hx
    subst hEq
    exact Finset.mem_Icc.mpr (hbnd pr hpr)
  have h3 := Finset.card_le_card h2
  rw [h1, Nat.card_Icc] at h3
  omega

/-! ### Helper lemmas: the inbound router loops -/

lemma sendTargeted_nil (message : String) (target : Int) (l : List (String × PlayerInfo))
    (h : ∀ pr ∈ l, (pr.2.player_num : Int) ≠ target) :
    sendTargeted message target l = [] := by
  induction l with
  | nil => rfl
  | cons hd rest ih =>
    obtain ⟨p, i⟩ := hd
    have hhd : ¬ ((i.player_num : Int) = target) := h (p, i) (List.mem_cons_self _ _)
    simp only [sendTargeted]
    rw [if_neg hhd]
    exact ih (fun pr hpr => h pr (List.mem_cons_of_mem _ hpr))

lemma sendTargeted_unique (message : String) (target : Int)
    (l : List (String × PlayerInfo)) (D : String × PlayerInfo)
    (hnum : (D.2.player_num : Int) = target)
    (hopen : D.2.serial_conn.is_open = true) :
    D ∈ l →
    (∀ pr ∈ l, (pr.2.player_num : Int) = target → pr = D) →
    (l.map Prod.fst).Nodup →
    sendTargeted message target l = [(D.1, message ++ "\n")] := by
  induction l with
  | nil => intro hmem _ _; cases hmem
  | cons hd rest ih =>
    intro hmem huniq hkeys
    obtain ⟨p, i⟩ := hd
    rw [List.map_cons, List.nodup_cons] at hkeys
    by_cases hhd : (i.player_num : Int) = target
    · have hDhd : (p, i) = D := huniq (p, i) (List.mem_cons_self _ _) hhd
      have hrest : ∀ pr ∈ rest, (pr.2.player_num : Int) ≠ target := by
        intro pr hpr hc
        have hprD : pr = D := huniq pr (List.mem_cons_of_mem _ hpr) hc
        rw [hprD, ← hDhd] at hpr
        exact hkeys.1 (List.mem_map.mpr ⟨(p, i), hpr, rfl⟩)
      have hopen' : i.serial_conn.is_open = true := by
        rw [show i = D.2 from congrArg Prod.snd hDhd]
        exact hopen
      simp only [sendTargeted]
      rw [if_pos hhd, if_pos hopen', sendTargeted_nil message target rest hrest, ite_self,
        ← hDhd]
    · have hmem' : D ∈ rest := by
        rcases List.mem_cons.mp hmem with hEq | h
        · rw [hEq] at hnum
          exact absurd hnum hhd
        · exact h
      simp only [sendTargeted]
      rw [if_neg hhd]
      exact ih hmem' (fun pr hpr hc => huniq pr (List.mem_cons_of_mem _ hpr) hc) hkeys.2

lemma sendBroadcast_mem (message : String) (l : List (String × PlayerInfo)) :
    ∀ pr ∈ l, pr.2.serial_conn.is_open = true →
      (pr.1, message ++ "\n") ∈ sendBroadcast message l := by
  induction l with
  | nil => intro pr h; cases h
  | cons hd rest ih =>
    intro pr hpr hopen
    obtain ⟨p, i⟩ := hd
    rcases List.mem_cons.mp hpr with hEq | hmem
    · subst hEq
      simp only [sendBroadcast]
      rw [if_pos hopen]
      exact List.mem_cons_self _ _
    · simp only [sendBroadcast]
      by_cases hio : i.serial_conn.is_open = true
      · rw [if_pos hio]
        exact List.mem_cons_of_mem _ (ih pr hmem hopen)
      · rw [if_neg hio]
        exact ih pr hmem hopen

lemma sendBroadcast_sound (message : String) (l : List (String × PlayerInfo)) :
    ∀ e ∈ sendBroadcast message l,
      ∃ pr ∈ l, pr.2.serial_conn.is_open = true ∧ e = (pr.1, message ++ "\n") := by
  induction l with
  | nil => intro e h; simp [sendBroadcast] at h
  | cons hd rest ih =>
    intro e he
    obtain ⟨p, i⟩ := hd
    simp only [sendBroadcast] at he
    by_cases hio : i.serial_conn.is_open = true
    · rw [if_pos hio] at he
      rcases List.mem_cons.mp he with hEq | hmem
      · exact ⟨(p, i), List.mem_cons_self _ _, hio, hEq⟩
      · obtain ⟨pr, hpr, ho, hEq⟩ := ih e hmem
        exact ⟨pr, List.mem_cons_of_mem _ hpr, ho, hEq⟩
    · rw [if_neg hio] at he
      obtain ⟨pr, hpr, ho, hEq⟩ := ih e he
      exact ⟨pr, List.mem_cons_of_mem _ hpr, ho, hEq⟩

/-! ### Helper lemmas: Python `str.strip()` -/

lemma dropWhile_head_not (p : Char → Bool) (l : List Char) (c : Char)
    (h : (l.dropWhile p).head? = some c) : p c = false := by
  have h2 := List.head?_dropWhile_not p l
  rw [h] at h2
  exact h2

lemma strip_append (m : List Char) :
    m = (m.reverse.dropWhile isPyWs).reverse ++ (m.reverse.takeWhile isPyWs).reverse := by
  have h := congrArg List.reverse (List.takeWhile_append_dropWhile (p := isPyWs) (l := m.reverse))
  rw [List.reverse_append, List.reverse_reverse] at h
  exact h.symm

lemma pyStripList_decomp (l : List Char) :
    l = l.takeWhile isPyWs ++ pyStripList l ++
        ((l.dropWhile isPyWs).reverse.takeWhile isPyWs).reverse := by
  unfold pyStripList
  conv_lhs => rw [← List.takeWhile_append_dropWhile (p := isPyWs) (l := l)]
  rw [List.append_assoc]
  congr 1
  exact strip_append (l.dropWhile isPyWs)

lemma pyStripList_head_not_ws (l : List Char) (c : Char)
    (h : (pyStripList l).head? = some c) : isPyWs c = false := by
  have hne : pyStripList l ≠ [] := by
    intro h0
    rw [h0] at h
    cases h
  have hd := strip_append (l.dropWhile isPyWs)
  have hh : (l.dropWhile isPyWs).head? = some c := by
    rw [hd, List.head?_append_of_ne_nil _ (by exact hne)]
    exact h
  exact dropWhile_head_not isPyWs l c hh

lemma pyStripList_getLast_not_ws (l : List Char) (c : Char)
    (h : (pyStripList l).getLast? = some c) : isPyWs c = false := by
  unfold pyStripList at h
  rw [List.getLast?_reverse] at h
  exact dropWhile_head_not isPyWs (l.dropWhile isPyWs).reverse c h

/-! ### Claim theorems -/

/-- C1: for every sequence of device connect and disconnect events processed by
the scanner and the relay cleanup, at most `MAX_PLAYERS` player bindings exist
in the registry at any instant, and no two simultaneous bindings are assigned
the same player slot. -/
theorem bindings_bounded_and_slots_exclusive (events : List Event) :
    (runEvents events).players.length ≤ MAX_PLAYERS ∧
    ((runEvents events).players.map (fun pr => pr.2.player_num)).Nodup :=
  ⟨length_le_of_good (good_runEvents events), (good_runEvents events).2.1⟩

/-- C2: for every state of the assigned-number set, `get_available_player_num`
returns the smallest integer in `[1, MAX_PLAYERS]` not currently assigned, and
returns `None` exactly when all of `1..MAX_PLAYERS` are assigned. -/
theorem get_available_player_num_correct (assigned : Finset Nat) :
    (∀ n, get_available_player_num assigned = some n →
      (1 ≤ n ∧ n ≤ MAX_PLAYERS ∧ n ∉ assigned ∧
        ∀ m, 1 ≤ m → m ≤ MAX_PLAYERS → m ∉ assigned → n ≤ m)) ∧
    (get_available_player_num assigned = none ↔
      ∀ i, 1 ≤ i → i ≤ MAX_PLAYERS → i ∈ assigned) :=
  ⟨fun n h => gap_some_spec assigned n h, gap_none_iff assigned⟩

/-- Witness for C2: with numbers 1 and 3 assigned, the allocator yields 2,
which is not assigned. -/
theorem get_available_player_num_correct_witness :
    get_available_player_num {1, 3} = some 2 ∧ 2 ∉ ({1, 3} : Finset Nat) :=
  ⟨by decide, ((get_available_player_num_correct {1, 3}).1 2 (by decide)).2.2.1⟩

/-- C3: after the device holding slot 1 disconnects and its relay cleanup has
run, the next device to connect receives slot 1 (lowest-free reuse; by slot
exclusivity no other binding can hold slot 1 once the holder is cleaned up). -/
theorem slot_one_reused_after_cleanup (events : List Event) (pa pb : String)
    (ca c : SerialConn)
    (ha : lookupPort pa (runEvents events).players
      = some { player_num := 1, serial_conn := ca })
    (hb : lookupPort pb ((relayCleanup (runEvents events) pa).1).players = none) :
    lookupPort pb ((scanConnect (relayCleanup (runEvents events) pa).1 pb c).players)
      = some { player_num := 1, serial_conn := c } := by
  set s0 := runEvents events with hs0
  have e1 : (relayCleanup s0 pa).1 =
      { players := s0.players.filter (fun pr => pr.1 ≠ pa),
        assigned_player_nums := s0.assigned_player_nums.erase 1 } := by
    unfold relayCleanup
    rw [ha]
  have h1na : (1 : Nat) ∉ ((relayCleanup s0 pa).1).assigned_player_nums := by
    rw [e1]
    exact Finset.not_mem_erase 1 _
  have hgap : get_available_player_num ((relayCleanup s0 pa).1).assigned_player_nums
      = some 1 := gap_one _ h1na
  have hlk : ¬ ((lookupPort pb ((relayCleanup s0 pa).1).players).isSome = true) := by
    rw [hb]
    simp
  have e2 : scanConnect (relayCleanup s0 pa).1 pb c =
      { players := ((relayCleanup s0 pa).1).players
          ++ [(pb, { player_num := 1, serial_conn := c })],
        assigned_player_nums := insert 1 ((relayCleanup s0 pa).1).assigned_player_nums } := by
    unfold scanConnect
    rw [if_neg hlk, hgap]
    exact if_neg (by omega)
  rw [e2]
  show lookupPort pb (((relayCleanup s0 pa).1).players
    ++ [(pb, { player_num := 1, serial_conn := c })]) = _
  rw [lookupPort_append pb _ _ hb]
  rw [lookupPort, if_pos rfl]

/-- Witness for C3: one device connects on "pa" (getting slot 1), its relay
cleans it up, and a new device on "pb" then receives slot 1. -/
theorem slot_one_reused_after_cleanup_witness :
    lookupPort "pb" ((scanConnect (relayCleanup (runEvents
        [Event.connect "pa" { is_open := true, write_ok := true }]) "pa").1 "pb"
        { is_open := false, write_ok := true }).players)
      = some { player_num := 1,
               serial_conn := { is_open := false, write_ok := true } } :=
  slot_one_reused_after_cleanup
    [Event.connect "pa" { is_open := true, write_ok := true }] "pa" "pb"
    { is_open := true, write_ok := true } { is_open := false, write_ok := true }
    (by decide) (by decide)

/-- C4: targeted routing — when slot `target` is bound to exactly one device
`D` whose handle is open, routing a message whose parsed object carries
`player_id = target` writes exactly the original raw message text plus a
newline to `D`, and writes to no other device. -/
theorem targeted_routing_exact (message : String) (target : Int)
    (players : List (String × PlayerInfo)) (D : String × PlayerInfo)
    (hmem : D ∈ players)
    (hnum : (D.2.player_num : Int) = target)
    (hopen : D.2.serial_conn.is_open = true)
    (huniq : ∀ pr ∈ players, (pr.2.player_num : Int) = target → pr = D)
    (hkeys : (players.map Prod.fst).Nodup) :
    handle_websocket_message message (Parsed.obj { player_id := some target }) players
      = [(D.1, message ++ "\n")] := by
  show sendTargeted message target players = _
  exact sendTargeted_unique message target players D hnum hopen hmem huniq hkeys

/-- Witness for C4: with slots 1 and 2 bound, a message targeting player 2 is
written to the slot-2 device only. -/
theorem targeted_routing_exact_witness :
    handle_websocket_message "hello" (Parsed.obj { player_id := some 2 })
      [("COM3", { player_num := 1, serial_conn := { is_open := true, write_ok := true } }),
       ("COM4", { player_num := 2, serial_conn := { is_open := true, write_ok := true } })]
      = [("COM4", "hello" ++ "\n")] :=
  targeted_routing_exact "hello" 2
    [("COM3", { player_num := 1, serial_conn := { is_open := true, write_ok := true } }),
     ("COM4", { player_num := 2, serial_conn := { is_open := true, write_ok := true } })]
    ("COM4", { player_num := 2, serial_conn := { is_open := true, write_ok := true } })
    (by decide) (by decide) (by decide) (by decide) (by decide)

/-- C5: broadcast routing — a message with no `player_id` field is written
(plus newline) to every bound device whose handle is open, and only to those;
the statement holds for every configuration of `write_ok` flags, so a write
failure on one binding does not prevent the write invocations on the
remaining bindings. -/
theorem broadcast_routing_all_open (message : String)
    (players : List (String × PlayerInfo)) :
    (∀ pr ∈ players, pr.2.serial_conn.is_open = true →
      (pr.1, message ++ "\n") ∈
        handle_websocket_message message (Parsed.obj { player_id := none }) players) ∧
    (∀ e ∈ handle_websocket_message message (Parsed.obj { player_id := none }) players,
      ∃ pr ∈ players, pr.2.serial_conn.is_open = true ∧ e = (pr.1, message ++ "\n")) := by
  constructor
  · intro pr hpr hopen
    show (pr.1, message ++ "\n") ∈ sendBroadcast message players
    exact sendBroadcast_mem message players pr hpr hopen
  · intro e he
    exact sendBroadcast_sound message players e he

/-- Witness for C5: the write to the second device is still invoked although
the first device's write fails. -/
theorem broadcast_routing_all_open_witness :
    ("COM4", "hello" ++ "\n") ∈
      handle_websocket_message "hello" (Parsed.obj { player_id := none })
        [("COM3", { player_num := 1, serial_conn := { is_open := true, write_ok := false } }),
         ("COM4", { player_num := 2, serial_conn := { is_open := true, write_ok := true } })] :=
  (broadcast_routing_all_open "hello"
    [("COM3", { player_num := 1, serial_conn := { is_open := true, write_ok := false } }),
     ("COM4", { player_num := 2, serial_conn := { is_open := true, write_ok := true } })]).1
    ("COM4", { player_num := 2, serial_conn := { is_open := true, write_ok := true } })
    (by decide) (by decide)

/-- C6: malformed input — a message that fails JSON parsing produces no serial
write at all; the handler catches the decode error and returns normally (the
model is total), so no exception escapes. -/
theorem malformed_input_no_writes (message : String)
    (players : List (String × PlayerInfo)) :
    handle_websocket_message message Parsed.invalid players = [] := rfl

/-- C7: running the relay's disconnect cleanup twice for the same port changes
the registry (both the bindings map and the assigned-slot set) and emits a
disconnected envelope only on the first run; the second run returns the state
unchanged and emits nothing. -/
theorem relay_cleanup_idempotent (events : List Event) (port : String)
    (h : (lookupPort port (runEvents events).players).isSome = true) :
    relayCleanup (relayCleanup (runEvents events) port).1 port
        = ((relayCleanup (runEvents events) port).1, none) ∧
    (relayCleanup (runEvents events) port).2.isSome = true ∧
    (relayCleanup (runEvents events) port).1.players ≠ (runEvents events).players ∧
    (relayCleanup (runEvents events) port).1.assigned_player_nums
        ≠ (runEvents events).assigned_player_nums := by
  set s0 := runEvents events with hs0
  obtain ⟨info, hinfo⟩ := Option.isSome_iff_exists.mp h
  have e1 : (relayCleanup s0 port).1 =
      { players := s0.players.filter (fun pr => pr.1 ≠ port),
        assigned_player_nums := s0.assigned_player_nums.erase info.player_num } := by
    unfold relayCleanup
    rw [hinfo]
  have e2 : (relayCleanup s0 port).2
      = some { player := info.player_num, port := port } := by
    unfold relayCleanup
    rw [hinfo]
  have hmem : (port, info) ∈ s0.players := lookupPort_some_mem hinfo
  have good := good_runEvents events
  refine ⟨?_, ?_, ?_, ?_⟩
  · set s1 := (relayCleanup s0 port).1 with hs1
    have hnone : lookupPort port s1.players = none := by
      rw [e1]
      exact lookupPort_filter_self port s0.players
    unfold relayCleanup
    rw [hnone]
  · rw [e2]
    rfl
  · rw [e1]
    intro hEq
    have hEq' : s0.players.filter (fun pr => pr.1 ≠ port) = s0.players := hEq
    rw [← hEq'] at hmem
    have := List.of_mem_filter hmem
    simp at this
  · rw [e1]
    intro hEq
    have hEq' : s0.assigned_player_nums.erase info.player_num
        = s0.assigned_player_nums := hEq
    have hin : info.player_num ∈ s0.assigned_player_nums :=
      (good.2.2.2 info.player_num).mpr ⟨(port, info), hmem, rfl⟩
    exact Finset.erase_eq_self.mp hEq' hin

/-- Witness for C7: one device connects on "COM3"; the first cleanup removes
it and emits a disconnected envelope, the second is a no-op. -/
theorem relay_cleanup_idempotent_witness :
    relayCleanup (relayCleanup (runEvents
        [Event.connect "COM3" { is_open := true, write_ok := true }]) "COM3").1 "COM3"
        = ((relayCleanup (runEvents
            [Event.connect "COM3" { is_open := true, write_ok := true }]) "COM3").1, none) ∧
    (relayCleanup (runEvents
        [Event.connect "COM3" { is_open := true, write_ok := true }]) "COM3").2.isSome
        = true ∧
    (relayCleanup (runEvents
        [Event.connect "COM3" { is_open := true, write_ok := true }]) "COM3").1.players
        ≠ (runEvents [Event.connect "COM3" { is_open := true, write_ok := true }]).players ∧
    (relayCleanup (runEvents
        [Event.connect "COM3" { is_open := true, write_ok := true }])
          "COM3").1.assigned_player_nums
        ≠ (runEvents
            [Event.connect "COM3" { is_open := true, write_ok := true }]).assigned_player_nums :=
  relay_cleanup_idempotent [Event.connect "COM3" { is_open := true, write_ok := true }]
    "COM3" (by decide)

/-- C8 counterexample: on the decoded line " HELLO" (leading space) the relay
broadcasts data "HELLO", whereas trimming only trailing whitespace — the
claim's wording — would keep the leading space; the two results differ. -/
theorem relay_strip_counterexample :
    processLine 1 " HELLO".data = some { player := 1, data := "HELLO".data } ∧
    trailingStripOnly " HELLO".data = " HELLO".data ∧
    "HELLO".data ≠ " HELLO".data := by
  refine ⟨?_, ?_, ?_⟩ <;> decide

/-- C8 (amended): the relay trims leading AND trailing whitespace from the
decoded line (Python `str.strip()`), and broadcasts the envelope
`(player, data := trimmed line)` exactly when the trimmed result is
non-empty.  The first three conjuncts pin down the trimming: the result is a
contiguous piece of the line surrounded by whitespace only, and itself starts
and ends with non-whitespace. -/
theorem relay_line_strips_both_ends (player_num : Nat) (rawLine : List Char) :
    (∃ pre post, rawLine = pre ++ pyStripList rawLine ++ post ∧
      pre.all isPyWs = true ∧ post.all isPyWs = true) ∧
    (∀ c, (pyStripList rawLine).head? = some c → isPyWs c = false) ∧
    (∀ c, (pyStripList rawLine).getLast? = some c → isPyWs c = false) ∧
    (processLine player_num rawLine =
      if pyStripList rawLine = [] then none
      else some { player := player_num, data := pyStripList rawLine }) := by
  refine ⟨⟨rawLine.takeWhile isPyWs,
      ((rawLine.dropWhile isPyWs).reverse.takeWhile isPyWs).reverse,
      pyStripList_decomp rawLine, List.all_takeWhile, ?_⟩,
    fun c h => pyStripList_head_not_ws rawLine c h,
    fun c h => pyStripList_getLast_not_ws rawLine c h, ?_⟩
  · rw [List.all_reverse]
    exact List.all_takeWhile
  · simp only [processLine]
    by_cases h0 : pyStripList rawLine = []
    · rw [if_neg (fun hc => hc h0), if_pos h0]
    · rw [if_pos h0, if_neg h0]

/-- Witness for C8 (amended): evaluation of the line-processing step on the
concrete line " HI " (whitespace on both sides). -/
theorem relay_line_strips_both_ends_witness :
    processLine 1 " HI ".data =
      (if pyStripList " HI ".data = [] then none
       else some { player := 1, data := pyStripList " HI ".data }) :=
  (relay_line_strips_both_ends 1 " HI ".data).2.2.2

/-- C9: broadcasting with no connected websocket clients performs no send and
raises no error; moreover the empty-collection `ValueError` branch of
`asyncio.wait` is unreachable from `broadcast` for every client set. -/
theorem broadcast_empty_clients_safe :
    (∀ message : String, wsBroadcast [] message = Except.ok []) ∧
    (∀ (clients : List Nat) (message : String),
      ∃ sends, wsBroadcast clients message = Except.ok sends) := by
  constructor
  · intro message
    rfl
  · intro clients message
    cases clients with
    | nil => exact ⟨[], rfl⟩
    | cons cl rest =>
      refine ⟨(cl :: rest).map (fun x => (x, message)), ?_⟩
      unfold wsBroadcast asyncio_wait
      rw [if_neg (by simp), if_neg (by simp)]

/-- C10: an enumerated device whose description is missing (None) never
qualifies as a player device and causes no error: the filter substitutes the
empty string for the missing description before the case-sensitive substring
test for "Serial". -/
theorem missing_description_never_qualifies (p : PortEntry)
    (hd : p.description = none) :
    qualifiesAsPlayer p = false ∧
    qualifiesAsPlayer p
      = qualifiesAsPlayer { device := p.device, description := some "" } := by
  constructor
  · unfold qualifiesAsPlayer
    rw [hd]
    decide
  · unfold qualifiesAsPlayer
    rw [hd]
    rfl

/-- Witness for C10: a concrete port entry with no description does not
qualify. -/
theorem missing_description_never_qualifies_witness :
    qualifiesAsPlayer { device := "COM9", description := none } = false ∧
    qualifiesAsPlayer { device := "COM9", description := none }
      = qualifiesAsPlayer { device := "COM9", description := some "" } :=
  missing_description_never_qualifies { device := "COM9", description := none } rfl
